import Mathlib

/-!
# DemandScheduler: verification of the replenishment simulation core

Shallow embedding of `src/main.py` (functions `calculate_order_quantity`,
lines 6-10, and `generate_order_schedule`, lines 13-99).

Modelling choices:
* Calendar dates are embedded as integers counting days (the source only ever
  adds `timedelta(days=n)` to dates and compares/equates them, so the calendar
  structure is irrelevant; `start_date + timedelta(days=n)` becomes `start + n`).
* Quantities (`daily_demand`, inventories, order quantities) are embedded as
  `Int`.  The source manipulates Python numbers and the spec calls them reals,
  but no operation on them other than `+`, `-`, `*` and `≤` occurs anywhere in
  the simulation, so every general theorem below is insensitive to the choice
  of ordered ring, and every concrete scenario of the spec uses integer values.
* The source stores dates in schedule rows as ISO-formatted strings and
  re-parses them with `pd.to_datetime` before sorting; since that round trip is
  the identity on dates, rows keep dates as integers here, with `none` standing
  for the empty string used in the `Order Date` column of arrival rows.
* `pandas.DataFrame.sort_values(by=['Arrival Date'])` sorts by the arrival-date
  key with the pandas default `kind='quicksort'`, which is not a stable sort;
  the embedding uses `List.insertionSort`, one concrete realization of a sort
  by that key.  Theorems below only rely on facts that hold for every
  sorted-by-key permutation (membership, and the relative order of rows with
  distinct keys).
-/

/-- The value of the `Event` column of a schedule row: the source writes the
string `'In Transit Arrival'` or `'PO Placed'`. -/
inductive EventKind where
  | inTransitArrival
  | poPlaced
deriving DecidableEq

/-- One entry of the `future_arrivals` list (a dict
`{'arrival_date': ..., 'quantity': ...}` in the source). -/
structure Arrival where
  arrival_date : Int
  quantity : Int
deriving DecidableEq

/-- One row appended to `schedule` in the source (lines 50-59 and 74-83).
`order_date = none` encodes the empty string of the `Order Date` column. -/
structure ScheduleEvent where
  product : String
  variant : String
  sku : String
  order_date : Option Int
  arrival_date : Int
  order_quantity : Int
  event : EventKind
  completed : Bool
deriving DecidableEq

/-- The arguments of `generate_order_schedule` (src/main.py lines 13-25). -/
structure Inputs where
  start_date : Int
  current_inventory : Int
  daily_demand : Int
  lead_time_days : Int
  shipping_time_days : Int
  safety_stock_days : Int
  product_name : String
  variant_name : String
  variant_sku : String
  in_transit_quantity : Int
  expected_arrival : Option Int
deriving DecidableEq

/-- `calculate_order_quantity` (src/main.py lines 6-10): returns
`(order_quantity, total_lead_time, safety_stock)`. -/
def calculate_order_quantity (daily_demand lead_time_days shipping_time_days safety_stock_days : Int) :
    Int × Int × Int :=
  let total_lead_time := lead_time_days + shipping_time_days
  let safety_stock := daily_demand * safety_stock_days
  let order_quantity := daily_demand * total_lead_time + safety_stock
  (order_quantity, total_lead_time, safety_stock)

/-- The derived constants of `generate_order_schedule` (src/main.py lines 26-29). -/
structure Params where
  total_lead_time : Int
  safety_stock : Int
  reorder_point : Int
  order_quantity : Int
deriving DecidableEq

/-- src/main.py lines 26-29. -/
def derive_params (i : Inputs) : Params :=
  let total_lead_time := i.lead_time_days + i.shipping_time_days
  let safety_stock := i.daily_demand * i.safety_stock_days
  { total_lead_time := total_lead_time
    safety_stock := safety_stock
    reorder_point := safety_stock + i.daily_demand * total_lead_time
    order_quantity := i.daily_demand * total_lead_time + safety_stock }

/-- The row appended for a matured arrival (src/main.py lines 50-59). -/
def inTransitRow (i : Inputs) (date qty : Int) : ScheduleEvent :=
  { product := i.product_name
    variant := i.variant_name
    sku := i.variant_sku
    order_date := none
    arrival_date := date
    order_quantity := qty
    event := .inTransitArrival
    completed := false }

/-- The row appended for a placed order (src/main.py lines 74-83). -/
def poPlacedRow (i : Inputs) (order_date arrival_date qty : Int) : ScheduleEvent :=
  { product := i.product_name
    variant := i.variant_name
    sku := i.variant_sku
    order_date := some order_date
    arrival_date := arrival_date
    order_quantity := qty
    event := .poPlaced
    completed := false }

/-- The running state of one simulated day together with the rows it emitted. -/
structure DayResult where
  inventory : Int
  future_arrivals : List Arrival
  events : List ScheduleEvent
deriving DecidableEq

/-- The `for arrival in arrivals_today` loop (src/main.py lines 48-61): for each
entry of the snapshot `arrivals_today`, credit its quantity, append an
`'In Transit Arrival'` row, and `future_arrivals.remove(arrival)` - which, like
Python's `list.remove`, erases the first element equal to `arrival`. -/
def matureLoop (i : Inputs) (date : Int) :
    List Arrival → Int → List Arrival → List ScheduleEvent → DayResult
  | [], inv, fa, evs => ⟨inv, fa, evs⟩
  | a :: rest, inv, fa, evs =>
      matureLoop i date rest (inv + a.quantity) (fa.erase a)
        (evs ++ [inTransitRow i date a.quantity])

/-- One iteration of the `while date < end_date` loop (src/main.py lines 45-90):
mature today's arrivals, debit the daily demand, and place an order when the
inventory is at or below the reorder point and no pending arrival lies strictly
beyond today. -/
def stepDay (i : Inputs) (p : Params) (date inv : Int) (future_arrivals : List Arrival) :
    DayResult :=
  let arrivals_today := future_arrivals.filter (fun a => a.arrival_date == date)
  let m := matureLoop i date arrivals_today inv future_arrivals []
  let inv2 := m.inventory - i.daily_demand
  if inv2 ≤ p.reorder_point then
    let pending_orders := m.future_arrivals.filter (fun a => date < a.arrival_date)
    if pending_orders.isEmpty then
      let order_date := date
      let arrival_date := order_date + p.total_lead_time
      ⟨inv2,
       m.future_arrivals ++ [⟨arrival_date, p.order_quantity⟩],
       m.events ++ [poPlacedRow i order_date arrival_date p.order_quantity]⟩
    else ⟨inv2, m.future_arrivals, m.events⟩
  else ⟨inv2, m.future_arrivals, m.events⟩

/-- The day loop (src/main.py lines 45-90).  `end_date = start_date + 365`
(line 33), so the `while date < end_date` loop runs exactly once per day for
365 days; `fuel` counts the days still to process and `date` is the current
day. -/
def simLoop (i : Inputs) (p : Params) :
    Nat → Int → Int → List Arrival → List ScheduleEvent → DayResult
  | 0, _, inv, fa, evs => ⟨inv, fa, evs⟩
  | fuel + 1, date, inv, fa, evs =>
      let d := stepDay i p date inv fa
      simLoop i p fuel (date + 1) d.inventory d.future_arrivals (evs ++ d.events)

/-- The initial content of `future_arrivals` (src/main.py lines 36-43): the
in-transit seed is inserted only when `in_transit_quantity > 0` and
`expected_arrival` is provided (a `datetime` is always truthy). -/
def seed_arrivals (i : Inputs) : List Arrival :=
  if 0 < i.in_transit_quantity then
    match i.expected_arrival with
    | some d => [⟨d, i.in_transit_quantity⟩]
    | none => []
  else []

/-- The final sort (src/main.py lines 92-97): rows are sorted by the
`Arrival Date` column.  See the header comment: the source's quicksort is
unstable, and `mergeSort` here realizes one sorted-by-key permutation. -/
def sortByArrival (schedule : List ScheduleEvent) : List ScheduleEvent :=
  schedule.insertionSort (fun e1 e2 => e1.arrival_date ≤ e2.arrival_date)

/-- `generate_order_schedule` (src/main.py lines 13-99). -/
def generate_order_schedule (i : Inputs) : List ScheduleEvent :=
  let p := derive_params i
  let result := simLoop i p 365 i.start_date i.current_inventory (seed_arrivals i) []
  sortByArrival result.events

/-- Modelled from the spec (sections 6 and 7): the validity condition that
`simulateReplenishment` is claimed to enforce by raising
`InvalidParameterError`.  The source contains no such validation (there is no
raise statement and no error class anywhere in `generate_order_schedule`);
this predicate exists to state claim C1 against the code. -/
def validInputs (i : Inputs) : Prop :=
  0 ≤ i.daily_demand ∧ 0 ≤ i.lead_time_days ∧ 0 ≤ i.shipping_time_days ∧
    0 ≤ i.safety_stock_days ∧
    (0 < i.in_transit_quantity → i.expected_arrival.isSome = true)

instance (i : Inputs) : Decidable (validInputs i) := by
  unfold validInputs
  infer_instance

/-! ## Basic loop lemmas -/

/-- Splitting the day loop: running `m + n` days is running `m` days and then
`n` more from the resulting state, `m` days later. -/
theorem simLoop_add (i : Inputs) (p : Params) (m n : Nat) :
    ∀ (t inv : Int) (fa : List Arrival) (evs : List ScheduleEvent),
      simLoop i p (m + n) t inv fa evs =
        simLoop i p n (t + m) (simLoop i p m t inv fa evs).inventory
          (simLoop i p m t inv fa evs).future_arrivals
          (simLoop i p m t inv fa evs).events := by
  induction m with
  | zero =>
      intro t inv fa evs
      simp [simLoop]
  | succ m ih =>
      intro t inv fa evs
      have hn : m + 1 + n = (m + n) + 1 := by omega
      rw [hn]
      show simLoop i p (m + n) (t + 1) _ _ _ = _
      rw [ih]
      have ht : t + 1 + (m : Int) = t + ((m : Nat) + 1 : Nat) := by push_cast; ring
      rw [ht]
      rfl

/-- The event accumulator just collects: the final event list is the initial
accumulator followed by the events the run itself emits. -/
theorem simLoop_evs (i : Inputs) (p : Params) :
    ∀ (fuel : Nat) (t inv : Int) (fa : List Arrival) (evs : List ScheduleEvent),
      simLoop i p fuel t inv fa evs =
        ⟨(simLoop i p fuel t inv fa []).inventory,
         (simLoop i p fuel t inv fa []).future_arrivals,
         evs ++ (simLoop i p fuel t inv fa []).events⟩ := by
  intro fuel
  induction fuel with
  | zero => intro t inv fa evs; simp [simLoop]
  | succ fuel ih =>
      intro t inv fa evs
      show simLoop i p fuel (t + 1) (stepDay i p t inv fa).inventory
          (stepDay i p t inv fa).future_arrivals (evs ++ (stepDay i p t inv fa).events) = _
      rw [ih (t + 1) (stepDay i p t inv fa).inventory (stepDay i p t inv fa).future_arrivals
          (evs ++ (stepDay i p t inv fa).events)]
      conv_rhs =>
        rw [show simLoop i p (fuel + 1) t inv fa [] =
              simLoop i p fuel (t + 1) (stepDay i p t inv fa).inventory
                (stepDay i p t inv fa).future_arrivals ([] ++ (stepDay i p t inv fa).events)
            from rfl]
        rw [ih (t + 1) (stepDay i p t inv fa).inventory (stepDay i p t inv fa).future_arrivals
            ([] ++ (stepDay i p t inv fa).events)]
      simp

/-! ## Characterizing one simulated day

The inner maturity loop of the source iterates over a snapshot of the matching
entries and calls `future_arrivals.remove(arrival)` on each, which removes the
first *equal* entry.  The following lemmas show this equals a single pass:
every entry arriving today is credited exactly once and removed, even when
several entries are equal (equal entries share their arrival date, so
first-equal removal can only hit matching entries). -/

theorem matureLoop_eq_aux (i : Inputs) (date : Int) :
    ∀ (q pre : List Arrival) (inv : Int) (evs : List ScheduleEvent),
      (∀ x ∈ pre, ¬ x.arrival_date = date) →
      matureLoop i date (q.filter (fun a => a.arrival_date == date)) inv (pre ++ q) evs =
        ⟨inv + ((q.filter (fun a => a.arrival_date == date)).map Arrival.quantity).sum,
         pre ++ q.filter (fun a => !(a.arrival_date == date)),
         evs ++ (q.filter (fun a => a.arrival_date == date)).map
           (fun a => inTransitRow i date a.quantity)⟩ := by
  intro q
  induction q with
  | nil => intro pre inv evs hpre; simp [matureLoop]
  | cons a q ih =>
      intro pre inv evs hpre
      by_cases h : a.arrival_date = date
      · have hfilter : (a :: q).filter (fun x => x.arrival_date == date)
            = a :: q.filter (fun x => x.arrival_date == date) := by
          simp [List.filter_cons, h]
        have hnotpre : a ∉ pre := fun hin => hpre a hin h
        have herase : (pre ++ a :: q).erase a = pre ++ q := by
          rw [List.erase_append_right _ hnotpre, List.erase_cons_head]
        rw [hfilter]
        show matureLoop i date (q.filter (fun x => x.arrival_date == date))
            (inv + a.quantity) ((pre ++ a :: q).erase a)
            (evs ++ [inTransitRow i date a.quantity]) = _
        rw [herase, ih pre (inv + a.quantity) (evs ++ [inTransitRow i date a.quantity]) hpre]
        simp [List.filter_cons, h, add_assoc]
      · have hfilter : (a :: q).filter (fun x => x.arrival_date == date)
            = q.filter (fun x => x.arrival_date == date) := by
          simp [List.filter_cons, h]
        have hpre' : ∀ x ∈ pre ++ [a], ¬ x.arrival_date = date := by
          intro x hx
          rcases List.mem_append.1 hx with hx | hx
          · exact hpre x hx
          · simp only [List.mem_singleton] at hx; subst hx; exact h
        rw [hfilter, show pre ++ a :: q = (pre ++ [a]) ++ q by simp,
          ih (pre ++ [a]) inv evs hpre']
        simp [List.filter_cons, h]

theorem matureLoop_eq (i : Inputs) (date inv : Int) (fa : List Arrival)
    (evs : List ScheduleEvent) :
    matureLoop i date (fa.filter (fun a => a.arrival_date == date)) inv fa evs =
      ⟨inv + ((fa.filter (fun a => a.arrival_date == date)).map Arrival.quantity).sum,
       fa.filter (fun a => !(a.arrival_date == date)),
       evs ++ (fa.filter (fun a => a.arrival_date == date)).map
         (fun a => inTransitRow i date a.quantity)⟩ :=
  matureLoop_eq_aux i date fa [] inv evs (by simp)

/-- One simulated day, characterized: today's pending arrivals are each
credited exactly once and removed from the queue before the demand debit, and
an order fires exactly when the post-credit post-debit inventory is at or below
the reorder point and no remaining entry arrives strictly after today. -/
theorem stepDay_eq (i : Inputs) (p : Params) (date inv : Int) (fa : List Arrival) :
    stepDay i p date inv fa =
      if inv + ((fa.filter (fun a => a.arrival_date == date)).map Arrival.quantity).sum
            - i.daily_demand ≤ p.reorder_point
          ∧ ((fa.filter (fun a => !(a.arrival_date == date))).filter
              (fun a => date < a.arrival_date)).isEmpty = true then
        ⟨inv + ((fa.filter (fun a => a.arrival_date == date)).map Arrival.quantity).sum
            - i.daily_demand,
         fa.filter (fun a => !(a.arrival_date == date))
           ++ [⟨date + p.total_lead_time, p.order_quantity⟩],
         (fa.filter (fun a => a.arrival_date == date)).map
             (fun a => inTransitRow i date a.quantity)
           ++ [poPlacedRow i date (date + p.total_lead_time) p.order_quantity]⟩
      else
        ⟨inv + ((fa.filter (fun a => a.arrival_date == date)).map Arrival.quantity).sum
            - i.daily_demand,
         fa.filter (fun a => !(a.arrival_date == date)),
         (fa.filter (fun a => a.arrival_date == date)).map
           (fun a => inTransitRow i date a.quantity)⟩ := by
  simp only [stepDay]
  rw [matureLoop_eq]
  by_cases h1 : inv + ((fa.filter (fun a => a.arrival_date == date)).map Arrival.quantity).sum
      - i.daily_demand ≤ p.reorder_point
  · by_cases h2 : (((fa.filter (fun a => !(a.arrival_date == date))).filter
        (fun a => date < a.arrival_date)).isEmpty : Bool) = true
    · simp [h1, h2]
    · simp [h1, h2]
  · simp [h1]

/-! ## The running invariant of the simulation -/

/-- Invariant carried across simulated days: `t` is the next day to be
processed, `s` the running state, `s.events` the rows emitted so far.
`pending_ok` records that an order whose arrival has not yet been reached
still has its entry in the queue; `no_overlap` is the single-outstanding-order
discipline. -/
structure SimInv (i : Inputs) (p : Params) (t : Int) (s : DayResult) : Prop where
  arrivals_ok : ∀ e ∈ s.events, e.event = EventKind.inTransitArrival →
    e.order_date = none ∧ i.start_date ≤ e.arrival_date ∧ e.arrival_date < t
  orders_ok : ∀ e ∈ s.events, e.event = EventKind.poPlaced →
    ∃ d, e.order_date = some d ∧ i.start_date ≤ d ∧ d < t ∧
      e.arrival_date = d + p.total_lead_time ∧ e.order_quantity = p.order_quantity
  pending_ok : ∀ e ∈ s.events, e.event = EventKind.poPlaced →
    e.arrival_date < t ∨ ∃ a ∈ s.future_arrivals, a.arrival_date = e.arrival_date
  no_overlap : ∀ e1 ∈ s.events, ∀ e2 ∈ s.events,
    e1.event = EventKind.poPlaced → e2.event = EventKind.poPlaced →
    ∀ d1 d2, e1.order_date = some d1 → e2.order_date = some d2 → d1 < d2 →
      e1.arrival_date ≤ d2

theorem stepDay_inv (i : Inputs) (p : Params) (t inv : Int) (fa : List Arrival)
    (evs : List ScheduleEvent) (ht : i.start_date ≤ t)
    (h : SimInv i p t ⟨inv, fa, evs⟩) :
    SimInv i p (t + 1)
      ⟨(stepDay i p t inv fa).inventory, (stepDay i p t inv fa).future_arrivals,
       evs ++ (stepDay i p t inv fa).events⟩ := by
  obtain ⟨harr, hord, hpend, hno⟩ := h
  rw [stepDay_eq]
  by_cases hc : inv + ((fa.filter (fun a => a.arrival_date == t)).map Arrival.quantity).sum
        - i.daily_demand ≤ p.reorder_point
      ∧ ((fa.filter (fun a => !(a.arrival_date == t))).filter
          (fun a => t < a.arrival_date)).isEmpty = true
  · -- an order is placed today
    have hfa1 : ∀ a ∈ fa.filter (fun a => !(a.arrival_date == t)), a.arrival_date ≤ t := by
      intro a ha
      have hempty := hc.2
      rw [List.isEmpty_iff, List.filter_eq_nil_iff] at hempty
      have := hempty a ha
      simp at this
      omega
    simp only [if_pos hc]
    constructor
    · -- arrivals_ok
      intro e he hk
      rcases List.mem_append.1 he with he | he
      · obtain ⟨h1, h2, h3⟩ := harr e he hk
        exact ⟨h1, h2, by omega⟩
      · rcases List.mem_append.1 he with he | he
        · obtain ⟨a, _, rfl⟩ := List.mem_map.1 he
          refine ⟨rfl, ?_, ?_⟩ <;> simp [inTransitRow] <;> omega
        · simp only [List.mem_singleton] at he
          subst he
          simp [poPlacedRow] at hk
    · -- orders_ok
      intro e he hk
      rcases List.mem_append.1 he with he | he
      · obtain ⟨d, h1, h2, h3, h4, h5⟩ := hord e he hk
        exact ⟨d, h1, h2, by omega, h4, h5⟩
      · rcases List.mem_append.1 he with he | he
        · obtain ⟨a, _, rfl⟩ := List.mem_map.1 he
          simp [inTransitRow] at hk
        · simp only [List.mem_singleton] at he
          subst he
          exact ⟨t, rfl, ht, by omega, rfl, rfl⟩
    · -- pending_ok
      intro e he hk
      rcases List.mem_append.1 he with he | he
      · rcases hpend e he hk with hlt | ⟨a, ha, haeq⟩
        · exact Or.inl (by omega)
        · by_cases hat : a.arrival_date = t
          · left
            have := hord e he hk
            omega
          · right
            refine ⟨a, List.mem_append.2 (Or.inl ?_), haeq⟩
            simp [List.mem_filter, ha, hat]
      · rcases List.mem_append.1 he with he | he
        · obtain ⟨a, _, rfl⟩ := List.mem_map.1 he
          simp [inTransitRow] at hk
        · simp only [List.mem_singleton] at he
          subst he
          right
          exact ⟨⟨t + p.total_lead_time, p.order_quantity⟩,
            List.mem_append.2 (Or.inr (List.mem_singleton.2 rfl)), rfl⟩
    · -- no_overlap
      intro e1 he1 e2 he2 hk1 hk2 d1 d2 ho1 ho2 hd
      rcases List.mem_append.1 he1 with he1 | he1
      · rcases List.mem_append.1 he2 with he2 | he2
        · exact hno e1 he1 e2 he2 hk1 hk2 d1 d2 ho1 ho2 hd
        · -- e2 was emitted today, so d2 = t
          rcases List.mem_append.1 he2 with he2 | he2
          · obtain ⟨a, _, rfl⟩ := List.mem_map.1 he2
            simp [inTransitRow] at hk2
          · simp only [List.mem_singleton] at he2
            subst he2
            simp only [poPlacedRow, Option.some.injEq] at ho2
            subst ho2
            rcases hpend e1 he1 hk1 with hlt | ⟨a, ha, haeq⟩
            · omega
            · by_cases hat : a.arrival_date = t
              · omega
              · have : a ∈ fa.filter (fun a => !(a.arrival_date == t)) := by
                  simp [List.mem_filter, ha, hat]
                have := hfa1 a this
                omega
      · -- e1 was emitted today
        rcases List.mem_append.1 he1 with he1 | he1
        · obtain ⟨a, _, rfl⟩ := List.mem_map.1 he1
          simp [inTransitRow] at hk1
        · simp only [List.mem_singleton] at he1
          subst he1
          simp only [poPlacedRow, Option.some.injEq] at ho1
          subst ho1
          rcases List.mem_append.1 he2 with he2 | he2
          · obtain ⟨d, h1, _, h3, _, _⟩ := hord e2 he2 hk2
            rw [ho2] at h1
            simp only [Option.some.injEq] at h1
            omega
          · rcases List.mem_append.1 he2 with he2 | he2
            · obtain ⟨a, _, rfl⟩ := List.mem_map.1 he2
              simp [inTransitRow] at hk2
            · simp only [List.mem_singleton] at he2
              subst he2
              simp only [poPlacedRow, Option.some.injEq] at ho2
              omega
  · -- no order today
    simp only [if_neg hc]
    constructor
    · intro e he hk
      rcases List.mem_append.1 he with he | he
      · obtain ⟨h1, h2, h3⟩ := harr e he hk
        exact ⟨h1, h2, by omega⟩
      · obtain ⟨a, _, rfl⟩ := List.mem_map.1 he
        refine ⟨rfl, ?_, ?_⟩ <;> simp [inTransitRow] <;> omega
    · intro e he hk
      rcases List.mem_append.1 he with he | he
      · obtain ⟨d, h1, h2, h3, h4, h5⟩ := hord e he hk
        exact ⟨d, h1, h2, by omega, h4, h5⟩
      · obtain ⟨a, _, rfl⟩ := List.mem_map.1 he
        simp [inTransitRow] at hk
    · intro e he hk
      rcases List.mem_append.1 he with he | he
      · rcases hpend e he hk with hlt | ⟨a, ha, haeq⟩
        · exact Or.inl (by omega)
        · by_cases hat : a.arrival_date = t
          · left
            have := hord e he hk
            omega
          · right
            refine ⟨a, ?_, haeq⟩
            simp [List.mem_filter, ha, hat]
      · obtain ⟨a, _, rfl⟩ := List.mem_map.1 he
        simp [inTransitRow] at hk
    · intro e1 he1 e2 he2 hk1 hk2 d1 d2 ho1 ho2 hd
      rcases List.mem_append.1 he1 with he1 | he1
      · rcases List.mem_append.1 he2 with he2 | he2
        · exact hno e1 he1 e2 he2 hk1 hk2 d1 d2 ho1 ho2 hd
        · obtain ⟨a, _, rfl⟩ := List.mem_map.1 he2
          simp [inTransitRow] at hk2
      · obtain ⟨a, _, rfl⟩ := List.mem_map.1 he1
        simp [inTransitRow] at hk1

theorem simLoop_inv (i : Inputs) (p : Params) :
    ∀ (fuel : Nat) (t inv : Int) (fa : List Arrival) (evs : List ScheduleEvent),
      i.start_date ≤ t → SimInv i p t ⟨inv, fa, evs⟩ →
      SimInv i p (t + fuel) (simLoop i p fuel t inv fa evs) := by
  intro fuel
  induction fuel with
  | zero =>
      intro t inv fa evs ht h
      simpa [simLoop] using h
  | succ fuel ih =>
      intro t inv fa evs ht h
      have hstep := stepDay_inv i p t inv fa evs ht h
      have := ih (t + 1) (stepDay i p t inv fa).inventory
        (stepDay i p t inv fa).future_arrivals (evs ++ (stepDay i p t inv fa).events)
        (by omega) hstep
      have harith : t + 1 + (fuel : Int) = t + ((fuel : Nat) + 1 : Nat) := by
        push_cast; ring
      rw [harith] at this
      exact this

/-- The invariant holds for the full run performed by
`generate_order_schedule`. -/
theorem generate_run_inv (i : Inputs) :
    SimInv i (derive_params i) (i.start_date + 365)
      (simLoop i (derive_params i) 365 i.start_date i.current_inventory
        (seed_arrivals i) []) := by
  have h0 : SimInv i (derive_params i) i.start_date
      ⟨i.current_inventory, seed_arrivals i, []⟩ := by
    constructor <;> intro e he <;> simp at he
  have := simLoop_inv i (derive_params i) 365 i.start_date i.current_inventory
    (seed_arrivals i) [] le_rfl h0
  simpa using this

/-- Membership in the returned schedule is membership in the emitted rows:
the final sort is a permutation. -/
theorem mem_generate (i : Inputs) (e : ScheduleEvent) :
    e ∈ generate_order_schedule i ↔
      e ∈ (simLoop i (derive_params i) 365 i.start_date i.current_inventory
        (seed_arrivals i) []).events := by
  unfold generate_order_schedule sortByArrival
  exact (List.perm_insertionSort _ _).mem_iff

/-! ## Symbolic evaluation of zero-demand runs -/

/-- The zero-demand, zero-inventory, no-in-transit input family of claim C3
(`safety_stock_days` is left arbitrary; C1 uses it with a negative value). -/
def zeroDemandInputs (start lt st ss : Int) (pn vn sk : String) : Inputs :=
  ⟨start, 0, 0, lt, st, ss, pn, vn, sk, 0, none⟩

theorem zeroDemand_params (start lt st ss : Int) (pn vn sk : String) :
    derive_params (zeroDemandInputs start lt st ss pn vn sk) =
      ⟨lt + st, 0, 0, 0⟩ := by
  simp [derive_params, zeroDemandInputs]

/-- A day on which nothing can happen: zero demand, zero reorder point, zero
inventory, and a single pending arrival strictly in the future blocking the
reorder branch.  The state is unchanged for any number of such days. -/
theorem simLoop_blocked (i : Inputs) (p : Params) (hdd : i.daily_demand = 0)
    (A q : Int) :
    ∀ (fuel : Nat) (t : Int) (evs : List ScheduleEvent),
      t + fuel ≤ A →
      simLoop i p fuel t 0 [⟨A, q⟩] evs = ⟨0, [⟨A, q⟩], evs⟩ := by
  intro fuel
  induction fuel with
  | zero => intro t evs hbound; simp [simLoop]
  | succ fuel ih =>
      intro t evs hbound
      have hne : ¬ A = t := by omega
      have htA : t < A := by omega
      have hstep : stepDay i p t 0 [⟨A, q⟩] = ⟨0, [⟨A, q⟩], []⟩ := by
        rw [stepDay_eq]
        split_ifs with hcond
        · exfalso
          have h2c := hcond.2
          simp [List.filter_cons, hne, htA] at h2c
        · simp [List.filter_cons, hne, hdd]
      show simLoop i p fuel (t + 1) (stepDay i p t 0 [⟨A, q⟩]).inventory
          (stepDay i p t 0 [⟨A, q⟩]).future_arrivals
          (evs ++ (stepDay i p t 0 [⟨A, q⟩]).events) = _
      rw [hstep]
      simpa using ih (t + 1) evs (by omega)

/-- Evaluation of the full run for zero demand, zero inventory, no in-transit,
when the total lead time reaches past the horizon: a single zero-quantity
order is placed on the very first day and nothing else ever happens. -/
theorem zero_demand_eval (start lt st ss : Int) (pn vn sk : String)
    (h365 : 365 ≤ lt + st) :
    generate_order_schedule (zeroDemandInputs start lt st ss pn vn sk) =
      [poPlacedRow (zeroDemandInputs start lt st ss pn vn sk) start (start + (lt + st)) 0] := by
  have hseed : seed_arrivals (zeroDemandInputs start lt st ss pn vn sk) = [] := by
    simp [seed_arrivals, zeroDemandInputs]
  have hstep0 : stepDay (zeroDemandInputs start lt st ss pn vn sk) ⟨lt + st, 0, 0, 0⟩
      start 0 [] =
      ⟨0, [⟨start + (lt + st), 0⟩],
       [poPlacedRow (zeroDemandInputs start lt st ss pn vn sk) start (start + (lt + st)) 0]⟩ := by
    rw [stepDay_eq]
    simp [zeroDemandInputs]
  show sortByArrival (simLoop (zeroDemandInputs start lt st ss pn vn sk)
      (derive_params (zeroDemandInputs start lt st ss pn vn sk)) 365 start 0
      (seed_arrivals (zeroDemandInputs start lt st ss pn vn sk)) []).events = _
  rw [zeroDemand_params, hseed]
  rw [show (365 : Nat) = 1 + 364 from rfl, simLoop_add]
  have h1 : simLoop (zeroDemandInputs start lt st ss pn vn sk) ⟨lt + st, 0, 0, 0⟩ 1
      start 0 [] [] =
      ⟨0, [⟨start + (lt + st), 0⟩],
       [poPlacedRow (zeroDemandInputs start lt st ss pn vn sk) start (start + (lt + st)) 0]⟩ := by
    show simLoop (zeroDemandInputs start lt st ss pn vn sk) ⟨lt + st, 0, 0, 0⟩ 0 (start + 1)
        (stepDay (zeroDemandInputs start lt st ss pn vn sk) ⟨lt + st, 0, 0, 0⟩ start 0 []).inventory
        (stepDay (zeroDemandInputs start lt st ss pn vn sk) ⟨lt + st, 0, 0, 0⟩ start 0 []).future_arrivals
        ([] ++ (stepDay (zeroDemandInputs start lt st ss pn vn sk) ⟨lt + st, 0, 0, 0⟩ start 0 []).events) = _
    rw [hstep0]
    simp [simLoop]
  rw [h1]
  simp only [Nat.cast_one]
  rw [simLoop_blocked _ _ (by simp [zeroDemandInputs]) (start + (lt + st)) 0 364
    (start + 1) _ (by omega)]
  simp [sortByArrival, List.insertionSort]

/-! ## An in-transit seed dated strictly before the current day is inert -/

theorem stepDay_stale_seed (i : Inputs) (p : Params) (d0 q t inv : Int)
    (fa : List Arrival) (hd : d0 < t) :
    stepDay i p t inv (⟨d0, q⟩ :: fa) =
      ⟨(stepDay i p t inv fa).inventory,
       ⟨d0, q⟩ :: (stepDay i p t inv fa).future_arrivals,
       (stepDay i p t inv fa).events⟩ := by
  have hne : ¬ d0 = t := by omega
  have hnl : ¬ t < d0 := by omega
  have hf1 : ((⟨d0, q⟩ : Arrival) :: fa).filter (fun a => a.arrival_date == t)
      = fa.filter (fun a => a.arrival_date == t) := by
    simp [List.filter_cons, hne]
  have hf2 : ((⟨d0, q⟩ : Arrival) :: fa).filter (fun a => !(a.arrival_date == t))
      = ⟨d0, q⟩ :: fa.filter (fun a => !(a.arrival_date == t)) := by
    simp [List.filter_cons, hne]
  have hf3 : ((⟨d0, q⟩ : Arrival) :: fa.filter (fun a => !(a.arrival_date == t))).filter
        (fun a => t < a.arrival_date)
      = (fa.filter (fun a => !(a.arrival_date == t))).filter (fun a => t < a.arrival_date) := by
    simp [List.filter_cons, hnl]
  rw [stepDay_eq, stepDay_eq, hf1, hf2, hf3]
  split_ifs with hcond
  · simp
  · simp

theorem simLoop_stale_seed (i : Inputs) (p : Params) (d0 q : Int) :
    ∀ (fuel : Nat) (t inv : Int) (fa : List Arrival) (evs : List ScheduleEvent),
      d0 < t →
      simLoop i p fuel t inv (⟨d0, q⟩ :: fa) evs =
        ⟨(simLoop i p fuel t inv fa evs).inventory,
         ⟨d0, q⟩ :: (simLoop i p fuel t inv fa evs).future_arrivals,
         (simLoop i p fuel t inv fa evs).events⟩ := by
  intro fuel
  induction fuel with
  | zero => intro t inv fa evs hd; simp [simLoop]
  | succ fuel ih =>
      intro t inv fa evs hd
      show simLoop i p fuel (t + 1) (stepDay i p t inv (⟨d0, q⟩ :: fa)).inventory
          (stepDay i p t inv (⟨d0, q⟩ :: fa)).future_arrivals
          (evs ++ (stepDay i p t inv (⟨d0, q⟩ :: fa)).events) = _
      rw [stepDay_stale_seed i p d0 q t inv fa hd]
      exact ih (t + 1) (stepDay i p t inv fa).inventory (stepDay i p t inv fa).future_arrivals
        (evs ++ (stepDay i p t inv fa).events) (by omega)

/-- The simulation never reads `in_transit_quantity` after seeding. -/
theorem inTransitRow_itq (i : Inputs) (date qty : Int) :
    inTransitRow { i with in_transit_quantity := 0 } date qty = inTransitRow i date qty := by
  simp [inTransitRow]

theorem poPlacedRow_itq (i : Inputs) (od ad qty : Int) :
    poPlacedRow { i with in_transit_quantity := 0 } od ad qty = poPlacedRow i od ad qty := by
  simp [poPlacedRow]

theorem stepDay_itq (i : Inputs) (p : Params) (t inv : Int) (fa : List Arrival) :
    stepDay { i with in_transit_quantity := 0 } p t inv fa = stepDay i p t inv fa := by
  have hdd : ({ i with in_transit_quantity := 0 } : Inputs).daily_demand = i.daily_demand := rfl
  rw [stepDay_eq, stepDay_eq, hdd]
  simp only [inTransitRow_itq, poPlacedRow_itq]

theorem derive_params_itq (i : Inputs) :
    derive_params { i with in_transit_quantity := 0 } = derive_params i := rfl

theorem simLoop_itq (i : Inputs) (p : Params) :
    ∀ (fuel : Nat) (t inv : Int) (fa : List Arrival) (evs : List ScheduleEvent),
      simLoop { i with in_transit_quantity := 0 } p fuel t inv fa evs =
        simLoop i p fuel t inv fa evs := by
  intro fuel
  induction fuel with
  | zero => intro t inv fa evs; rfl
  | succ fuel ih =>
      intro t inv fa evs
      show simLoop { i with in_transit_quantity := 0 } p fuel (t + 1) _ _ _ = _
      rw [stepDay_itq]
      exact ih (t + 1) (stepDay i p t inv fa).inventory (stepDay i p t inv fa).future_arrivals
        (evs ++ (stepDay i p t inv fa).events)

theorem stale_seed_run (i : Inputs) (d0 : Int)
    (hq : 0 < i.in_transit_quantity) (he : i.expected_arrival = some d0)
    (hd : d0 < i.start_date) :
    generate_order_schedule i
      = generate_order_schedule { i with in_transit_quantity := 0 } := by
  have hseed1 : seed_arrivals i = [⟨d0, i.in_transit_quantity⟩] := by
    simp [seed_arrivals, hq, he]
  have hseed2 : seed_arrivals { i with in_transit_quantity := 0 } = [] := by
    simp [seed_arrivals]
  have hs : ({ i with in_transit_quantity := 0 } : Inputs).start_date = i.start_date := rfl
  have hi : ({ i with in_transit_quantity := 0 } : Inputs).current_inventory
      = i.current_inventory := rfl
  show sortByArrival (simLoop i (derive_params i) 365 i.start_date i.current_inventory
      (seed_arrivals i) []).events =
    sortByArrival (simLoop { i with in_transit_quantity := 0 }
      (derive_params { i with in_transit_quantity := 0 }) 365
      ({ i with in_transit_quantity := 0 } : Inputs).start_date
      ({ i with in_transit_quantity := 0 } : Inputs).current_inventory
      (seed_arrivals { i with in_transit_quantity := 0 }) []).events
  rw [hseed1, hseed2, derive_params_itq, simLoop_itq, hs, hi,
    simLoop_stale_seed i (derive_params i) d0 i.in_transit_quantity 365 i.start_date
      i.current_inventory [] [] hd]

/-! ## Concrete evaluation of Scenario A (claims C2 and C4)

`cfgA` is the spec's Scenario A: `dailyDemand=10, leadTimeDays=20,
shippingTimeDays=10, safetyStockDays=5, startingInventory=1000`, no in-transit,
with `startDate` encoded as day 0 (2024-01-01).  The 365-day run is evaluated
by the kernel in chunks of at most 35 days, glued with `simLoop_add`. -/

def cfgA : Inputs := ⟨0, 1000, 10, 20, 10, 5, "", "", "", 0, none⟩

/-- An arrival row of Scenario A (all credited arrivals have quantity 350). -/
def rowArrA (d : Int) : ScheduleEvent := inTransitRow cfgA d 350

/-- An order row of Scenario A (all orders have quantity 350 and 30-day lead). -/
def rowPoA (od ad : Int) : ScheduleEvent := poPlacedRow cfgA od ad 350

set_option maxRecDepth 40000 in
theorem cfgA_chunk1 :
    simLoop cfgA (derive_params cfgA) 35 0 1000 [] [] =
      ⟨650, [], []⟩ := by decide

set_option maxRecDepth 40000 in
theorem cfgA_chunk2 :
    simLoop cfgA (derive_params cfgA) 35 35 650 [] [] =
      ⟨300, [⟨94, 350⟩], [rowPoA 64 94]⟩ := by decide

set_option maxRecDepth 40000 in
theorem cfgA_chunk3 :
    simLoop cfgA (derive_params cfgA) 35 70 300 [⟨94, 350⟩] [rowPoA 64 94] =
      ⟨300, [⟨129, 350⟩], [rowPoA 64 94, rowArrA 94, rowPoA 99 129]⟩ := by decide

set_option maxRecDepth 40000 in
theorem cfgA_chunk4 :
    simLoop cfgA (derive_params cfgA) 35 105 300 [⟨129, 350⟩] [rowPoA 64 94, rowArrA 94, rowPoA 99 129] =
      ⟨300, [⟨164, 350⟩], [rowPoA 64 94, rowArrA 94, rowPoA 99 129, rowArrA 129, rowPoA 134 164]⟩ := by decide

set_option maxRecDepth 40000 in
theorem cfgA_chunk5 :
    simLoop cfgA (derive_params cfgA) 35 140 300 [⟨164, 350⟩] [rowPoA 64 94, rowArrA 94, rowPoA 99 129, rowArrA 129, rowPoA 134 164] =
      ⟨300, [⟨199, 350⟩], [rowPoA 64 94, rowArrA 94, rowPoA 99 129, rowArrA 129, rowPoA 134 164, rowArrA 164, rowPoA 169 199]⟩ := by decide

set_option maxRecDepth 40000 in
theorem cfgA_chunk6 :
    simLoop cfgA (derive_params cfgA) 35 175 300 [⟨199, 350⟩] [rowPoA 64 94, rowArrA 94, rowPoA 99 129, rowArrA 129, rowPoA 134 164, rowArrA 164, rowPoA 169 199] =
      ⟨300, [⟨234, 350⟩], [rowPoA 64 94, rowArrA 94, rowPoA 99 129, rowArrA 129, rowPoA 134 164, rowArrA 164, rowPoA 169 199, rowArrA 199, rowPoA 204 234]⟩ := by decide

set_option maxRecDepth 40000 in
theorem cfgA_chunk7 :
    simLoop cfgA (derive_params cfgA) 35 210 300 [⟨234, 350⟩] [rowPoA 64 94, rowArrA 94, rowPoA 99 129, rowArrA 129, rowPoA 134 164, rowArrA 164, rowPoA 169 199, rowArrA 199, rowPoA 204 234] =
      ⟨300, [⟨269, 350⟩], [rowPoA 64 94, rowArrA 94, rowPoA 99 129, rowArrA 129, rowPoA 134 164, rowArrA 164, rowPoA 169 199, rowArrA 199, rowPoA 204 234, rowArrA 234, rowPoA 239 269]⟩ := by decide

set_option maxRecDepth 40000 in
theorem cfgA_chunk8 :
    simLoop cfgA (derive_params cfgA) 35 245 300 [⟨269, 350⟩] [rowPoA 64 94, rowArrA 94, rowPoA 99 129, rowArrA 129, rowPoA 134 164, rowArrA 164, rowPoA 169 199, rowArrA 199, rowPoA 204 234, rowArrA 234, rowPoA 239 269] =
      ⟨300, [⟨304, 350⟩], [rowPoA 64 94, rowArrA 94, rowPoA 99 129, rowArrA 129, rowPoA 134 164, rowArrA 164, rowPoA 169 199, rowArrA 199, rowPoA 204 234, rowArrA 234, rowPoA 239 269, rowArrA 269, rowPoA 274 304]⟩ := by decide

set_option maxRecDepth 40000 in
theorem cfgA_chunk9 :
    simLoop cfgA (derive_params cfgA) 35 280 300 [⟨304, 350⟩] [rowPoA 64 94, rowArrA 94, rowPoA 99 129, rowArrA 129, rowPoA 134 164, rowArrA 164, rowPoA 169 199, rowArrA 199, rowPoA 204 234, rowArrA 234, rowPoA 239 269, rowArrA 269, rowPoA 274 304] =
      ⟨300, [⟨339, 350⟩], [rowPoA 64 94, rowArrA 94, rowPoA 99 129, rowArrA 129, rowPoA 134 164, rowArrA 164, rowPoA 169 199, rowArrA 199, rowPoA 204 234, rowArrA 234, rowPoA 239 269, rowArrA 269, rowPoA 274 304, rowArrA 304, rowPoA 309 339]⟩ := by decide

set_option maxRecDepth 40000 in
theorem cfgA_chunk10 :
    simLoop cfgA (derive_params cfgA) 35 315 300 [⟨339, 350⟩] [rowPoA 64 94, rowArrA 94, rowPoA 99 129, rowArrA 129, rowPoA 134 164, rowArrA 164, rowPoA 169 199, rowArrA 199, rowPoA 204 234, rowArrA 234, rowPoA 239 269, rowArrA 269, rowPoA 274 304, rowArrA 304, rowPoA 309 339] =
      ⟨300, [⟨374, 350⟩], [rowPoA 64 94, rowArrA 94, rowPoA 99 129, rowArrA 129, rowPoA 134 164, rowArrA 164, rowPoA 169 199, rowArrA 199, rowPoA 204 234, rowArrA 234, rowPoA 239 269, rowArrA 269, rowPoA 274 304, rowArrA 304, rowPoA 309 339, rowArrA 339, rowPoA 344 374]⟩ := by decide

set_option maxRecDepth 40000 in
theorem cfgA_chunk11 :
    simLoop cfgA (derive_params cfgA) 15 350 300 [⟨374, 350⟩] [rowPoA 64 94, rowArrA 94, rowPoA 99 129, rowArrA 129, rowPoA 134 164, rowArrA 164, rowPoA 169 199, rowArrA 199, rowPoA 204 234, rowArrA 234, rowPoA 239 269, rowArrA 269, rowPoA 274 304, rowArrA 304, rowPoA 309 339, rowArrA 339, rowPoA 344 374] =
      ⟨150, [⟨374, 350⟩], [rowPoA 64 94, rowArrA 94, rowPoA 99 129, rowArrA 129, rowPoA 134 164, rowArrA 164, rowPoA 169 199, rowArrA 199, rowPoA 204 234, rowArrA 234, rowPoA 239 269, rowArrA 269, rowPoA 274 304, rowArrA 304, rowPoA 309 339, rowArrA 339, rowPoA 344 374]⟩ := by decide

/-- The full (pre-sort) event list of Scenario A. -/
def eventsA : List ScheduleEvent := [rowPoA 64 94, rowArrA 94, rowPoA 99 129, rowArrA 129, rowPoA 134 164, rowArrA 164, rowPoA 169 199, rowArrA 199, rowPoA 204 234, rowArrA 234, rowPoA 239 269, rowArrA 269, rowPoA 274 304, rowArrA 304, rowPoA 309 339, rowArrA 339, rowPoA 344 374]

theorem cfgA_run :
    simLoop cfgA (derive_params cfgA) 365 0 1000 [] [] = ⟨150, [⟨374, 350⟩], eventsA⟩ := by
  rw [show (365 : Nat) = 35 + 330 from rfl, simLoop_add, cfgA_chunk1]
  norm_num
  rw [show (330 : Nat) = 35 + 295 from rfl, simLoop_add, cfgA_chunk2]
  norm_num
  rw [show (295 : Nat) = 35 + 260 from rfl, simLoop_add, cfgA_chunk3]
  norm_num
  rw [show (260 : Nat) = 35 + 225 from rfl, simLoop_add, cfgA_chunk4]
  norm_num
  rw [show (225 : Nat) = 35 + 190 from rfl, simLoop_add, cfgA_chunk5]
  norm_num
  rw [show (190 : Nat) = 35 + 155 from rfl, simLoop_add, cfgA_chunk6]
  norm_num
  rw [show (155 : Nat) = 35 + 120 from rfl, simLoop_add, cfgA_chunk7]
  norm_num
  rw [show (120 : Nat) = 35 + 85 from rfl, simLoop_add, cfgA_chunk8]
  norm_num
  rw [show (85 : Nat) = 35 + 50 from rfl, simLoop_add, cfgA_chunk9]
  norm_num
  rw [show (50 : Nat) = 35 + 15 from rfl, simLoop_add, cfgA_chunk10]
  norm_num
  rw [cfgA_chunk11]
  rfl

theorem cfgA_schedule : generate_order_schedule cfgA = eventsA := by
  show sortByArrival (simLoop cfgA (derive_params cfgA) 365 0 1000 [] []).events = eventsA
  rw [cfgA_run]
  decide

/-! ## Concrete evaluation of a zero-demand run with an in-horizon lead time -/

/-- Zero demand, zero inventory, no in-transit, `totalLeadTime = 183`:
the day-0 order matures inside the horizon and triggers a second order. -/
def cfg3 : Inputs := zeroDemandInputs 0 183 0 0 "" "" ""

theorem cfg3_schedule :
    generate_order_schedule cfg3 =
      [poPlacedRow cfg3 0 183 0, inTransitRow cfg3 183 0, poPlacedRow cfg3 183 366 0] := by
  show sortByArrival (simLoop cfg3 (derive_params cfg3) 365 0 0 [] []).events = _
  rw [show (365 : Nat) = 1 + 364 from rfl, simLoop_add]
  rw [show simLoop cfg3 (derive_params cfg3) 1 0 0 [] []
      = ⟨0, [⟨183, 0⟩], [poPlacedRow cfg3 0 183 0]⟩ from by decide]
  norm_num
  rw [show (364 : Nat) = 182 + 182 from rfl, simLoop_add]
  rw [simLoop_blocked cfg3 (derive_params cfg3) (by decide) 183 0 182 1
    [poPlacedRow cfg3 0 183 0] (by norm_num)]
  norm_num
  rw [show (182 : Nat) = 1 + 181 from rfl, simLoop_add]
  rw [show simLoop cfg3 (derive_params cfg3) 1 183 0 [⟨183, 0⟩] [poPlacedRow cfg3 0 183 0]
      = ⟨0, [⟨366, 0⟩],
         [poPlacedRow cfg3 0 183 0, inTransitRow cfg3 183 0, poPlacedRow cfg3 183 366 0]⟩
      from by decide]
  norm_num
  rw [simLoop_blocked cfg3 (derive_params cfg3) (by decide) 366 0 181 184
    [poPlacedRow cfg3 0 183 0, inTransitRow cfg3 183 0, poPlacedRow cfg3 183 366 0]
    (by norm_num)]
  decide

/-- The C1 counterexample input: `safety_stock_days = -1` is invalid per the
spec, yet the simulation runs and returns a non-empty schedule. -/
def cfgC1 : Inputs := zeroDemandInputs 0 365 0 (-1) "" "" ""

theorem cfgC1_schedule :
    generate_order_schedule cfgC1 = [poPlacedRow cfgC1 0 365 0] := by
  have := zero_demand_eval 0 365 0 (-1) "" "" "" (by norm_num)
  simpa using this

/-! ## Claim theorems -/

/-- Claim C1, counterexample: the spec says `simulateReplenishment` fails with
`InvalidParameterError` on a negative parameter before any simulation step, and
that no schedule is returned.  The code performs no validation: on the invalid
input `cfgC1` (negative `safety_stock_days`) the full 365-day simulation runs
and returns a non-empty, complete schedule. -/
theorem invalid_input_returns_schedule :
    ¬ validInputs cfgC1 ∧
    generate_order_schedule cfgC1 = [poPlacedRow cfgC1 0 365 0] ∧
    generate_order_schedule cfgC1 ≠ [] := by
  refine ⟨by decide, cfgC1_schedule, ?_⟩
  rw [cfgC1_schedule]
  simp

/-- Claim C1, amended: `generate_order_schedule` performs no parameter
validation and never raises - for every input the spec deems invalid (a
negative parameter, or `in_transit_quantity > 0` without an arrival date), the
full 365-day simulation still runs and returns its schedule, whose `OrderPlaced`
rows obey the normal emission rules. -/
theorem no_validation (i : Inputs) (hv : ¬ validInputs i) (e : ScheduleEvent)
    (he : e ∈ generate_order_schedule i) (hk : e.event = EventKind.poPlaced) :
    ∃ d, e.order_date = some d ∧ i.start_date ≤ d ∧ d < i.start_date + 365 ∧
      e.arrival_date = d + (derive_params i).total_lead_time ∧
      e.order_quantity = (derive_params i).order_quantity := by
  have hinv := generate_run_inv i
  rw [mem_generate] at he
  exact hinv.orders_ok e he hk

theorem no_validation_witness :
    ¬ validInputs cfgC1 ∧ poPlacedRow cfgC1 0 365 0 ∈ generate_order_schedule cfgC1 ∧
    ∃ d, (poPlacedRow cfgC1 0 365 0).order_date = some d ∧ cfgC1.start_date ≤ d ∧
      d < cfgC1.start_date + 365 ∧
      (poPlacedRow cfgC1 0 365 0).arrival_date = d + (derive_params cfgC1).total_lead_time ∧
      (poPlacedRow cfgC1 0 365 0).order_quantity = (derive_params cfgC1).order_quantity :=
  ⟨by decide, by rw [cfgC1_schedule]; decide,
   no_validation cfgC1 (by decide) (poPlacedRow cfgC1 0 365 0)
     (by rw [cfgC1_schedule]; decide) (by decide)⟩

/-- Claim C2, counterexample: the spec claims every `arrivalDate` lies in
`[startDate, startDate + 365)`.  In Scenario A the order placed on day 344
arrives on day 374, beyond the horizon, and its row is in the returned
schedule. -/
theorem arrival_beyond_horizon :
    validInputs cfgA ∧
    rowPoA 344 374 ∈ generate_order_schedule cfgA ∧
    ¬ ((rowPoA 344 374).arrival_date < cfgA.start_date + 365) := by
  refine ⟨by decide, ?_, by decide⟩
  rw [cfgA_schedule]
  decide

/-- Claim C2, amended: for every valid input, `InTransitArrival` rows arrive
within `[startDate, startDate + 365)`; `OrderPlaced` rows have an order date
within `[startDate, startDate + 365)` and arrive exactly `totalLeadTime` days
later, hence within `[startDate, startDate + 365 + totalLeadTime)`. -/
theorem horizon_bound (i : Inputs) (hv : validInputs i) (e : ScheduleEvent)
    (he : e ∈ generate_order_schedule i) :
    i.start_date ≤ e.arrival_date ∧
    e.arrival_date < i.start_date + 365 + (derive_params i).total_lead_time ∧
    (e.event = EventKind.inTransitArrival → e.arrival_date < i.start_date + 365) ∧
    (e.event = EventKind.poPlaced → ∃ d, e.order_date = some d ∧ i.start_date ≤ d ∧
      d < i.start_date + 365 ∧ e.arrival_date = d + (derive_params i).total_lead_time) := by
  have hinv := generate_run_inv i
  rw [mem_generate] at he
  have hL : 0 ≤ (derive_params i).total_lead_time := by
    obtain ⟨hdd, hlt, hst, hss, _⟩ := hv
    simp only [derive_params]
    omega
  cases hkind : e.event with
  | inTransitArrival =>
      obtain ⟨hnone, hlo, hhi⟩ := hinv.arrivals_ok e he hkind
      refine ⟨hlo, by omega, fun _ => hhi, fun hpo => ?_⟩
      simp at hpo
  | poPlaced =>
      obtain ⟨d, ho, hd0, hd1, harr, hq⟩ := hinv.orders_ok e he hkind
      refine ⟨by omega, by omega, fun hit => ?_, fun _ => ⟨d, ho, hd0, hd1, harr⟩⟩
      simp at hit

theorem horizon_bound_witness :
    validInputs cfgA ∧ rowPoA 344 374 ∈ generate_order_schedule cfgA ∧
    (rowPoA 344 374).arrival_date < cfgA.start_date + 365
      + (derive_params cfgA).total_lead_time :=
  ⟨by decide, by rw [cfgA_schedule]; decide,
   (horizon_bound cfgA (by decide) (rowPoA 344 374) (by rw [cfgA_schedule]; decide)).2.1⟩

/-- Claim C3, counterexample: with zero demand, zero inventory and no
in-transit, the spec claims exactly one `OrderPlaced` row and no further
events.  With `totalLeadTime = 183` the zero-quantity order matures inside the
horizon and a second order is placed: the schedule has two `OrderPlaced` rows
(and an arrival row). -/
theorem zero_demand_repeat_orders :
    cfg3.daily_demand = 0 ∧ cfg3.current_inventory = 0 ∧ cfg3.in_transit_quantity = 0 ∧
    ((generate_order_schedule cfg3).filter
        (fun e => e.event == EventKind.poPlaced)).length = 2 ∧
    (2 : Nat) ≠ 1 := by
  refine ⟨rfl, rfl, rfl, ?_, by decide⟩
  rw [cfg3_schedule]
  decide

/-- Claim C3, amended: with zero demand, zero inventory and no in-transit the
reorder condition triggers immediately and a zero-quantity `OrderPlaced` row
with `orderDate = startDate` is emitted; it is the only event of the schedule
whenever `totalLeadTime ≥ 365` (otherwise the order matures inside the horizon
and further zero-quantity orders recur). -/
theorem zero_demand_boundary (start lt st ss : Int) (pn vn sk : String)
    (h365 : 365 ≤ lt + st) :
    generate_order_schedule (zeroDemandInputs start lt st ss pn vn sk)
      = [poPlacedRow (zeroDemandInputs start lt st ss pn vn sk) start (start + (lt + st)) 0] ∧
    (poPlacedRow (zeroDemandInputs start lt st ss pn vn sk) start (start + (lt + st)) 0).event
      = EventKind.poPlaced ∧
    (poPlacedRow (zeroDemandInputs start lt st ss pn vn sk) start
        (start + (lt + st)) 0).order_date = some start :=
  ⟨zero_demand_eval start lt st ss pn vn sk h365, rfl, rfl⟩

theorem zero_demand_boundary_witness :
    (365 : Int) ≤ 365 + 0 ∧
    generate_order_schedule (zeroDemandInputs 0 365 0 0 "" "" "")
      = [poPlacedRow (zeroDemandInputs 0 365 0 0 "" "" "") 0 (0 + (365 + 0)) 0] :=
  ⟨by norm_num, (zero_demand_boundary 0 365 0 0 "" "" "" (by norm_num)).1⟩

/-- Claim C4, counterexample: in Scenario A the spec puts the first order at
`startDate + 65`; the code places it on `startDate + 64` (the inventory first
reaches the reorder point 350 after the 65th daily debit, on day index 64). -/
theorem scenario_a_first_order_date :
    ((generate_order_schedule cfgA).filter
        (fun e => e.event == EventKind.poPlaced)).head? = some (rowPoA 64 94) ∧
    (rowPoA 64 94).order_date ≠ some (cfgA.start_date + 65) := by
  refine ⟨?_, by decide⟩
  rw [cfgA_schedule]
  decide

/-- Claim C4, amended: in Scenario A the reorder point is 350 and the first
`OrderPlaced` row has `orderDate = startDate + 64`,
`arrivalDate = orderDate + 30` and quantity 350. -/
theorem scenario_a_first_order :
    (derive_params cfgA).reorder_point = 350 ∧
    ((generate_order_schedule cfgA).filter
        (fun e => e.event == EventKind.poPlaced)).head? = some (rowPoA 64 94) ∧
    (rowPoA 64 94).order_date = some (cfgA.start_date + 64) ∧
    (rowPoA 64 94).arrival_date = cfgA.start_date + 64 + 30 ∧
    (rowPoA 64 94).order_quantity = 350 ∧
    (derive_params cfgA).total_lead_time = 30 := by
  refine ⟨by decide, ?_, by decide, by decide, by decide, by decide⟩
  rw [cfgA_schedule]
  decide

/-- Claim C5: no second order is placed while one is in flight - for any two
`OrderPlaced` rows, the later order date is at or after the earlier order's
arrival date. -/
theorem single_outstanding (i : Inputs) (hv : validInputs i)
    (e1 e2 : ScheduleEvent) (h1 : e1 ∈ generate_order_schedule i)
    (h2 : e2 ∈ generate_order_schedule i) (k1 : e1.event = EventKind.poPlaced)
    (k2 : e2.event = EventKind.poPlaced) (d1 d2 : Int)
    (o1 : e1.order_date = some d1) (o2 : e2.order_date = some d2) (hd : d1 < d2) :
    e1.arrival_date ≤ d2 := by
  have hinv := generate_run_inv i
  rw [mem_generate] at h1 h2
  exact hinv.no_overlap e1 h1 e2 h2 k1 k2 d1 d2 o1 o2 hd

theorem single_outstanding_witness :
    validInputs cfgA ∧ rowPoA 64 94 ∈ generate_order_schedule cfgA ∧
    rowPoA 99 129 ∈ generate_order_schedule cfgA ∧ (64 : Int) < 99 ∧
    (rowPoA 64 94).arrival_date ≤ 99 :=
  ⟨by decide, by rw [cfgA_schedule]; decide, by rw [cfgA_schedule]; decide, by decide,
   single_outstanding cfgA (by decide) (rowPoA 64 94) (rowPoA 99 129)
     (by rw [cfgA_schedule]; decide) (by rw [cfgA_schedule]; decide)
     (by decide) (by decide) 64 99 (by decide) (by decide) (by decide)⟩

/-- Claim C7: the derived parameters follow the spec formulas, and the reorder
point and order quantity coincide, both in `calculate_order_quantity` and in
the recomputation inside `generate_order_schedule`. -/
theorem derived_parameter_formulas (i : Inputs)
    (h1 : 0 ≤ i.daily_demand) (h2 : 0 ≤ i.lead_time_days)
    (h3 : 0 ≤ i.shipping_time_days) (h4 : 0 ≤ i.safety_stock_days) :
    (derive_params i).total_lead_time = i.lead_time_days + i.shipping_time_days ∧
    (derive_params i).safety_stock = i.daily_demand * i.safety_stock_days ∧
    (derive_params i).reorder_point
      = i.daily_demand * (derive_params i).total_lead_time + (derive_params i).safety_stock ∧
    (derive_params i).order_quantity
      = i.daily_demand * (derive_params i).total_lead_time + (derive_params i).safety_stock ∧
    (derive_params i).reorder_point = (derive_params i).order_quantity ∧
    calculate_order_quantity i.daily_demand i.lead_time_days i.shipping_time_days
        i.safety_stock_days
      = ((derive_params i).order_quantity, (derive_params i).total_lead_time,
         (derive_params i).safety_stock) := by
  refine ⟨rfl, rfl, ?_, rfl, ?_, rfl⟩ <;> simp [derive_params] <;> ring

theorem derived_parameter_formulas_witness :
    (0 : Int) ≤ 10 ∧ (0 : Int) ≤ 20 ∧ (0 : Int) ≤ 10 ∧ (0 : Int) ≤ 5 ∧
    (derive_params cfgA).reorder_point = (derive_params cfgA).order_quantity :=
  ⟨by decide, by decide, by decide, by decide,
   (derived_parameter_formulas cfgA (by decide) (by decide) (by decide)
     (by decide)).2.2.2.2.1⟩

/-- Claim C8: when an order is placed on day `d`, the emitted row has
`orderDate = d`, `arrivalDate = d + totalLeadTime`, quantity `orderQuantity`,
a matching pending arrival is enqueued, and the day's closing inventory equals
credits minus the demand debit - placing the order does not credit inventory. -/
theorem order_placement_effects (i : Inputs) (p : Params) (date inv : Int)
    (fa : List Arrival) (e : ScheduleEvent) (he : e ∈ (stepDay i p date inv fa).events)
    (hk : e.event = EventKind.poPlaced) :
    e.order_date = some date ∧
    e.arrival_date = date + p.total_lead_time ∧
    e.order_quantity = p.order_quantity ∧
    (⟨date + p.total_lead_time, p.order_quantity⟩ : Arrival)
      ∈ (stepDay i p date inv fa).future_arrivals ∧
    (stepDay i p date inv fa).inventory
      = inv + ((fa.filter (fun a => a.arrival_date == date)).map Arrival.quantity).sum
        - i.daily_demand := by
  rw [stepDay_eq] at he ⊢
  split_ifs at he ⊢ with hc
  · rcases List.mem_append.1 he with he | he
    · obtain ⟨a, _, rfl⟩ := List.mem_map.1 he
      simp [inTransitRow] at hk
    · simp only [List.mem_singleton] at he
      subst he
      exact ⟨rfl, rfl, rfl, List.mem_append.2 (Or.inr (List.mem_singleton.2 rfl)), rfl⟩
  · exfalso
    obtain ⟨a, _, rfl⟩ := List.mem_map.1 he
    simp [inTransitRow] at hk

theorem order_placement_effects_witness :
    rowPoA 64 94 ∈ (stepDay cfgA (derive_params cfgA) 64 360 []).events ∧
    (rowPoA 64 94).event = EventKind.poPlaced ∧
    (rowPoA 64 94).order_date = some 64 ∧
    (⟨94, 350⟩ : Arrival) ∈ (stepDay cfgA (derive_params cfgA) 64 360 []).future_arrivals :=
  ⟨by decide, by decide,
   (order_placement_effects cfgA (derive_params cfgA) 64 360 [] (rowPoA 64 94)
     (by decide) (by decide)).1,
   (order_placement_effects cfgA (derive_params cfgA) 64 360 [] (rowPoA 64 94)
     (by decide) (by decide)).2.2.2.1⟩

/-- Claim C9: on each day, every pending arrival due that day is credited
exactly once (even when several entries are equal) and removed from the queue,
the crediting happens before the demand debit, and the reorder check compares
the post-credit post-debit inventory; the day's behavior is exactly this
single-pass characterization of the remove-first-equal loop of the source. -/
theorem maturity_exactly_once (i : Inputs) (p : Params) (date inv : Int)
    (fa : List Arrival) :
    stepDay i p date inv fa =
      if inv + ((fa.filter (fun a => a.arrival_date == date)).map Arrival.quantity).sum
            - i.daily_demand ≤ p.reorder_point
          ∧ ((fa.filter (fun a => !(a.arrival_date == date))).filter
              (fun a => date < a.arrival_date)).isEmpty = true then
        ⟨inv + ((fa.filter (fun a => a.arrival_date == date)).map Arrival.quantity).sum
            - i.daily_demand,
         fa.filter (fun a => !(a.arrival_date == date))
           ++ [⟨date + p.total_lead_time, p.order_quantity⟩],
         (fa.filter (fun a => a.arrival_date == date)).map
             (fun a => inTransitRow i date a.quantity)
           ++ [poPlacedRow i date (date + p.total_lead_time) p.order_quantity]⟩
      else
        ⟨inv + ((fa.filter (fun a => a.arrival_date == date)).map Arrival.quantity).sum
            - i.daily_demand,
         fa.filter (fun a => !(a.arrival_date == date)),
         (fa.filter (fun a => a.arrival_date == date)).map
           (fun a => inTransitRow i date a.quantity)⟩ :=
  stepDay_eq i p date inv fa

/-- Claim C10: an in-transit quantity whose arrival date lies strictly before
the start date is never matured, never blocks an order, and the schedule equals
the one for the same input with `in_transit_quantity = 0`. -/
theorem stale_in_transit_ignored (i : Inputs) (d0 : Int)
    (hq : 0 < i.in_transit_quantity) (he : i.expected_arrival = some d0)
    (hd : d0 < i.start_date) :
    generate_order_schedule i
      = generate_order_schedule { i with in_transit_quantity := 0 } :=
  stale_seed_run i d0 hq he hd

def cfg10 : Inputs := ⟨0, 0, 0, 365, 0, 0, "", "", "", 5, some (-3)⟩

theorem stale_in_transit_ignored_witness :
    (0 : Int) < (cfg10 : Inputs).in_transit_quantity ∧
    (cfg10 : Inputs).expected_arrival = some (-3) ∧ (-3 : Int) < (cfg10 : Inputs).start_date ∧
    generate_order_schedule cfg10
      = generate_order_schedule { cfg10 with in_transit_quantity := 0 } :=
  ⟨by decide, rfl, by decide,
   stale_in_transit_ignored cfg10 (-3) (by decide) rfl (by decide)⟩
